import Mathlib

/-!
Verification development for the epiviz.gl core of the
`webgl-point-interactivity-demo` repository.

The JavaScript sources are shallowly embedded:
* plain JS numbers are modelled by exact rationals (`ℚ`);
* where division by zero matters (the linear `scale` constructor), JS numbers
  are additionally modelled by `JSNum`, which carries the IEEE-754 special
  values `NaN`, `Infinity` and `-Infinity` and propagates them with the IEEE
  rules while keeping finite arithmetic exact (signed zero is collapsed to `0`,
  which is adequate here: the only zero denominators that arise are of the form
  `a - a`, whose IEEE result is `+0`);
* JS `undefined` and thrown `TypeError`s are modelled with `Option`;
* stateful classes become records with explicit state-passing functions.
-/

namespace Epiviz

/-! ## JS numbers with IEEE special values

Used to analyse `scale` (src/epiviz.gl/utilities.js) on degenerate domains,
where JavaScript produces `Infinity`/`NaN` rather than raising an error. -/

/-- A JavaScript number: `NaN`, `±Infinity`, or a finite value (kept exact). -/
inductive JSNum where
  | nan : JSNum
  | inf : JSNum
  | ninf : JSNum
  | fin : ℚ → JSNum
  deriving DecidableEq, Repr

namespace JSNum

/-- IEEE negation. -/
def neg : JSNum → JSNum
  | nan => nan
  | inf => ninf
  | ninf => inf
  | fin q => fin (-q)

/-- IEEE addition (special-value rules; finite part exact). -/
def add : JSNum → JSNum → JSNum
  | nan, _ => nan
  | _, nan => nan
  | inf, ninf => nan
  | ninf, inf => nan
  | inf, _ => inf
  | _, inf => inf
  | ninf, _ => ninf
  | _, ninf => ninf
  | fin a, fin b => fin (a + b)

/-- IEEE subtraction, `a - b = a + (-b)`. -/
def sub (a b : JSNum) : JSNum := a.add b.neg

/-- IEEE multiplication (special-value rules; finite part exact). -/
def mul : JSNum → JSNum → JSNum
  | nan, _ => nan
  | _, nan => nan
  | inf, inf => inf
  | inf, ninf => ninf
  | ninf, inf => ninf
  | ninf, ninf => inf
  | inf, fin q => if q = 0 then nan else if 0 < q then inf else ninf
  | fin q, inf => if q = 0 then nan else if 0 < q then inf else ninf
  | ninf, fin q => if q = 0 then nan else if 0 < q then ninf else inf
  | fin q, ninf => if q = 0 then nan else if 0 < q then ninf else inf
  | fin a, fin b => fin (a * b)

/-- IEEE division (special-value rules; finite part exact; zero denominators
treated as `+0`, see the file header). -/
def div : JSNum → JSNum → JSNum
  | nan, _ => nan
  | _, nan => nan
  | inf, inf => nan
  | inf, ninf => nan
  | ninf, inf => nan
  | ninf, ninf => nan
  | inf, fin q => if 0 ≤ q then inf else ninf
  | ninf, fin q => if 0 ≤ q then ninf else inf
  | fin _, inf => fin 0
  | fin _, ninf => fin 0
  | fin a, fin b =>
      if b = 0 then (if a = 0 then nan else if 0 < a then inf else ninf)
      else fin (a / b)

/-- A JS number is finite when it is neither `NaN` nor `±Infinity`. -/
def isFinite : JSNum → Bool
  | fin _ => true
  | _ => false

end JSNum

/-! ## CoordinateScale: the linear `scale` constructor

Source: `scale(domain, range)` in src/epiviz.gl/utilities.js lines 10-16. -/

/-- Embedding of `scale(domain, range)` over exact rationals (`ℚ` division is
total with `x / 0 = 0`; theorems about degenerate domains use `scaleJS`). -/
def scale (domain range : ℚ × ℚ) : ℚ → ℚ :=
  let domainLength := domain.2 - domain.1
  let rangeLength := range.2 - range.1
  let slope := rangeLength / domainLength
  let intercept := range.2 - slope * domain.2
  fun x => slope * x + intercept

/-- Embedding of `scale(domain, range)` over IEEE-style JS numbers, faithful to
the special-value behaviour of division by zero. -/
def scaleJS (domain range : JSNum × JSNum) : JSNum → JSNum :=
  let domainLength := domain.2.sub domain.1
  let rangeLength := range.2.sub range.1
  let slope := rangeLength.div domainLength
  let intercept := range.2.sub (slope.mul domain.2)
  fun x => (slope.mul x).add intercept

/-! ## ViewportController and SelectionEngine: MouseReader

Source: src/epiviz.gl/mouse-reader.js.  The DOM element, SVG overlay and event
dispatching are outside the embedding; the viewport state and its mutation by
`_onWheel` / `_onPan` / the `mouseup` handler are modelled exactly. -/

/-- The viewport-relevant state of a `MouseReader` (mouse-reader.js): data
extent `minX..maxY` (set by the `viewport` setter), the mutable current
ranges, per-axis lock flags, and the canvas size in pixels. -/
structure MouseReaderState where
  minX : ℚ
  maxX : ℚ
  minY : ℚ
  maxY : ℚ
  currentXRange : ℚ × ℚ
  currentYRange : ℚ × ℚ
  lockedX : Bool
  lockedY : Bool
  width : ℚ
  height : ℚ
  deriving DecidableEq, Repr

/-- `MouseReader._calculateViewportSpot(canvasX, canvasY)`: map a canvas pixel
to data space (y flipped, as in the source). -/
def calculateViewportSpot (s : MouseReaderState) (canvasX canvasY : ℚ) :
    ℚ × ℚ :=
  (scale (0, s.width) s.currentXRange canvasX,
   scale (s.height, 0) s.currentYRange canvasY)

/-- `MouseReader._validateXRange` / `_validateYRange`: a range is valid when
`range[1] >= range[0]`. -/
def validRange (r : ℚ × ℚ) : Bool := r.2 ≥ r.1

/-- The two `Math.max`/`Math.min` clamping lines of each axis block of
`_onWheel` and `_onPan`: lower bound clamped up to `min`, upper bound clamped
down to `max` of the data extent. -/
def clampAxis (mn mx : ℚ) (cand : ℚ × ℚ) : ℚ × ℚ :=
  (max cand.1 mn, min cand.2 mx)

/-- One axis block of `_onWheel`/`_onPan`: if the axis is locked do nothing;
otherwise clamp the candidate range, and if the result is invalid roll back to
the previous range (`// Zoom in limit`). -/
def axisUpdate (locked : Bool) (mn mx : ℚ) (prev cand : ℚ × ℚ) : ℚ × ℚ :=
  if locked then prev
  else
    let clamped := clampAxis mn mx cand
    if validRange clamped then clamped else prev

/-- The unclamped x-range produced by the wheel handler:
`t*inDataSpace[0] + (1-t)*currentXRange[i]` with `t = -wheelDelta/1000`. -/
def wheelXCandidate (s : MouseReaderState) (wheelDelta layerX layerY : ℚ) :
    ℚ × ℚ :=
  let t := -wheelDelta / 1000
  let inDataSpace := calculateViewportSpot s layerX layerY
  (t * inDataSpace.1 + (1 - t) * s.currentXRange.1,
   t * inDataSpace.1 + (1 - t) * s.currentXRange.2)

/-- The unclamped y-range produced by the wheel handler (uses
`inDataSpace[1]`). -/
def wheelYCandidate (s : MouseReaderState) (wheelDelta layerX layerY : ℚ) :
    ℚ × ℚ :=
  let t := -wheelDelta / 1000
  let inDataSpace := calculateViewportSpot s layerX layerY
  (t * inDataSpace.2 + (1 - t) * s.currentYRange.1,
   t * inDataSpace.2 + (1 - t) * s.currentYRange.2)

/-- The x-axis block of `MouseReader._onWheel`. -/
def onWheelX (s : MouseReaderState) (wheelDelta layerX layerY : ℚ) :
    MouseReaderState :=
  let cand := wheelXCandidate s wheelDelta layerX layerY
  { s with currentXRange := axisUpdate s.lockedX s.minX s.maxX s.currentXRange cand }

/-- The y-axis block of `MouseReader._onWheel` (evaluated on the state left by
the x block, as in the source). -/
def onWheelY (s : MouseReaderState) (wheelDelta layerX layerY : ℚ) :
    MouseReaderState :=
  let cand := wheelYCandidate s wheelDelta layerX layerY
  { s with currentYRange := axisUpdate s.lockedY s.minY s.maxY s.currentYRange cand }

/-- `MouseReader._onWheel`: x block then y block (event dispatch and SVG
updates have no effect on the viewport state and are omitted). -/
def onWheel (s : MouseReaderState) (wheelDelta layerX layerY : ℚ) :
    MouseReaderState :=
  onWheelY (onWheelX s wheelDelta layerX layerY) wheelDelta layerX layerY

/-- The unclamped x-range produced by the pan handler: both bounds translated
by `-movementX * xDampen` with `xDampen = rangeWidth/1000`. -/
def panXCandidate (s : MouseReaderState) (movementX : ℚ) : ℚ × ℚ :=
  let xDampen := (s.currentXRange.2 - s.currentXRange.1) / 1000
  (s.currentXRange.1 - movementX * xDampen,
   s.currentXRange.2 - movementX * xDampen)

/-- The unclamped y-range produced by the pan handler: both bounds translated
by `+movementY * yDampen` (canvas y grows downwards). -/
def panYCandidate (s : MouseReaderState) (movementY : ℚ) : ℚ × ℚ :=
  let yDampen := (s.currentYRange.2 - s.currentYRange.1) / 1000
  (s.currentYRange.1 + movementY * yDampen,
   s.currentYRange.2 + movementY * yDampen)

/-- The x-axis block of `MouseReader._onPan`. -/
def onPanX (s : MouseReaderState) (movementX : ℚ) : MouseReaderState :=
  let cand := panXCandidate s movementX
  { s with currentXRange := axisUpdate s.lockedX s.minX s.maxX s.currentXRange cand }

/-- The y-axis block of `MouseReader._onPan`. -/
def onPanY (s : MouseReaderState) (movementY : ℚ) : MouseReaderState :=
  let cand := panYCandidate s movementY
  { s with currentYRange := axisUpdate s.lockedY s.minY s.maxY s.currentYRange cand }

/-- `MouseReader._onPan`: x block then y block. -/
def onPan (s : MouseReaderState) (movementX movementY : ℚ) : MouseReaderState :=
  onPanY (onPanX s movementX) movementY

/-- The viewport invariant of the spec: the current range of each axis lies
inside the data extent and is not inverted. -/
def viewportBoundsInv (s : MouseReaderState) : Prop :=
  s.minX ≤ s.currentXRange.1 ∧ s.currentXRange.1 ≤ s.currentXRange.2 ∧
  s.currentXRange.2 ≤ s.maxX ∧
  s.minY ≤ s.currentYRange.1 ∧ s.currentYRange.1 ≤ s.currentYRange.2 ∧
  s.currentYRange.2 ≤ s.maxY

instance (s : MouseReaderState) : Decidable (viewportBoundsInv s) := by
  unfold viewportBoundsInv; infer_instance

/-- The `mouseup` handler of `MouseReader.init` together with `_onSelect`:
returns the new `_currentSelectionPoints` and the points passed to
`handler.selectPoints` (if any).  Box mode demands exactly 4 scalars, lasso at
least 6; otherwise the accumulator is discarded and nothing is emitted. -/
def mouseupSelection (tool : String) (currentSelectionPoints : List ℚ) :
    List ℚ × Option (List ℚ) :=
  match tool with
  | "pan" => (currentSelectionPoints, none)
  | "box" =>
      if currentSelectionPoints.length ≠ 4 then ([], none)
      else (currentSelectionPoints, some currentSelectionPoints)
  | "lasso" =>
      if currentSelectionPoints.length < 6 then ([], none)
      else (currentSelectionPoints, some currentSelectionPoints)
  | _ => (currentSelectionPoints, none)

/-! ## SpecificationCompiler: VertexShader

Source: `VertexShader` in src/epiviz.gl/webgl.js. -/

/-- The fixed shader prologue `baseVertexShader` (webgl.js); its GLSL comment
lines are dropped. -/
def baseVertexShader : String :=
  "precision highp float; attribute vec2 aVertexPosition; " ++
  "uniform float pointSizeModifier; uniform vec4 viewport; varying vec4 vColor;\n"

/-- The fixed shader epilogue `vertexShaderSuffix` (webgl.js).  The GLSL
function bodies (`unpackColor` and `main`) are elided to a marker: the claims
depend only on the epilogue being one fixed string appended at build time. -/
def vertexShaderSuffix : String :=
  "vec3 unpackColor(float f); void main(void); // GLSL bodies elided\n"

/-- The state of a `VertexShader` instance: shader text, the memoization flag
of `buildShader` (`this.built`), the uniforms, the `aVertexPosition` buffer
(flat x,y pairs), the non-position channel buffers in insertion order, and the
draw mode.  `numComponents` of a buffer never affects the claims and is
dropped. -/
structure VertexShaderState where
  shader : String
  built : Bool
  uniforms : List (String × ℚ)
  aVertexPositionData : List ℚ
  channelAttributes : List (String × List ℚ)
  drawMode : String
  deriving DecidableEq, Repr

/-- The `VertexShader` constructor followed by `setDrawMode`: base shader
text, no uniforms, empty buffers; `this.built` starts undefined (falsy). -/
def VertexShaderState.init (drawMode : String) : VertexShaderState :=
  ⟨baseVertexShader, false, [], [], [], drawMode⟩

/-- `VertexShader.addChannelBuffer(channel)`: register a per-vertex buffer and
append an attribute declaration to the shader text. -/
def addChannelBuffer (s : VertexShaderState) (channel : String) :
    VertexShaderState :=
  { s with channelAttributes := s.channelAttributes ++ [(channel, [])],
           shader := s.shader ++ "attribute float " ++ channel ++ ";\n" }

/-- `VertexShader.setChannelUniform(channel, uniform)`: register a uniform and
append a uniform declaration to the shader text. -/
def setChannelUniform (s : VertexShaderState) (channel : String) (uniform : ℚ) :
    VertexShaderState :=
  { s with uniforms := s.uniforms ++ [(channel, uniform)],
           shader := s.shader ++ "uniform float " ++ channel ++ ";\n" }

/-- `VertexShader.buildShader()`: memoized; the first call appends the fixed
epilogue and sets `this.built`. -/
def buildShader (s : VertexShaderState) : String × VertexShaderState :=
  if s.built then (s.shader, s)
  else
    let sh := s.shader ++ vertexShaderSuffix
    (sh, { s with shader := sh, built := true })

/-- `VertexShader.addMarkToBuffers(mark, vertexCalculator)`: push the mark's
calculated vertices onto `aVertexPosition`; for every other channel buffer
push `mark[channel]` once per loop iteration `i < vertices.length / 2`, which
is `⌈n/2⌉ = (n+1)/2` iterations for a length-`n` JS array.  The vertex
calculator result is passed in as the flat list `vertices`; the mark's channel
values as the function `mark`. -/
def addMarkToBuffers (s : VertexShaderState) (vertices : List ℚ)
    (mark : String → ℚ) : VertexShaderState :=
  { s with
      aVertexPositionData := s.aVertexPositionData ++ vertices,
      channelAttributes := s.channelAttributes.map
        (fun c => (c.1,
          c.2 ++ List.replicate ((vertices.length + 1) / 2) (mark c.1))) }

/-- One channel entry of a track specification as `fromTrack` consumes it: an
optional literal numeric `value` (`track[channel].value`); a channel present
without a truthy value is data-bound via an attribute. -/
structure TrackChannel where
  value : Option ℚ
  deriving DecidableEq, Repr

/-- Modelled from the spec: `DEFAULT_CHANNELS` is declared in
schema-processor.js, which is not under src/.  Spec §3 and §4.2 give the
enumerated channel set (x, y, color, size, opacity, shape, width, height),
each with a documented numeric default.  The claims settled against this
definition depend only on the key set and on `fromTrack`'s iteration over it;
the default values are placeholders. -/
def DEFAULT_CHANNELS : List (String × ℚ) :=
  [("x", 0), ("y", 0), ("color", 0), ("size", 1),
   ("opacity", 1), ("shape", 0), ("width", 1), ("height", 1)]

/-- `colorSpecifierToHex(specifier)` (utilities.js) restricted to numeric
specifiers (`!isNaN` branch): `Math.floor(specifier)`. -/
def colorSpecifierToHex (v : ℚ) : ℚ := ⌊v⌋

/-- One loop iteration of `VertexShader.fromTrack` over a `DEFAULT_CHANNELS`
entry: skip `shape`; a channel present in the track with a truthy `value`
(`if (track[channel].value)`: defined and non-zero) becomes a uniform (color
values normalised by `colorSpecifierToHex`); a present channel without a
truthy value becomes an attribute buffer, except `x`/`y` which are skipped
(positions are handled by `aVertexPosition`); an absent channel gets its
default as a uniform. -/
def fromTrackStep (track : List (String × TrackChannel))
    (s : VertexShaderState) (entry : String × ℚ) : VertexShaderState :=
  if entry.1 = "shape" then s
  else
    match track.lookup entry.1 with
    | some ch =>
        match ch.value with
        | some v =>
            if v ≠ 0 then
              setChannelUniform s entry.1
                (if entry.1 = "color" then colorSpecifierToHex v else v)
            else if entry.1 = "y" ∨ entry.1 = "x" then s
            else addChannelBuffer s entry.1
        | none =>
            if entry.1 = "y" ∨ entry.1 = "x" then s
            else addChannelBuffer s entry.1
    | none => setChannelUniform s entry.1 entry.2

/-- `VertexShader.fromTrack(track)`.  The draw mode is passed in directly: it
is computed by `getDrawModeForTrack` in schema-processor.js, which is not
under src/ and does not affect channel registration. -/
def fromTrack (drawMode : String) (track : List (String × TrackChannel)) :
    VertexShaderState :=
  DEFAULT_CHANNELS.foldl (fromTrackStep track) (VertexShaderState.init drawMode)

/-! ## RenderLoop: WebGLCanvasDrawer

Source: `WebGLCanvasDrawer.getWebGLViewport` and `animate` (webgl-drawer
source file, src/unnamed/part_000). -/

/-- One GPU call issued by `animate`, as seen by the webgl/twgl backend. -/
inductive GLCommand where
  | useProgram (i : ℕ)
  | setUniforms (i : ℕ) (viewport : ℚ × ℚ × ℚ × ℚ) (pointSizeModifier : ℚ)
      (trackUniforms : List (String × ℚ))
  | clearColor
  | enableBlend
  | blendFunc
  | clear
  | setBuffersAndAttributes (i : ℕ)
  | draw (i : ℕ) (drawMode : String) (vertexCount : ℕ)
  deriving DecidableEq, Repr

/-- Is the command a `twgl.drawBufferInfo` call? -/
def GLCommand.isDraw : GLCommand → Bool
  | draw _ _ _ => true
  | _ => false

/-- Is the command a `twgl.setUniforms` call? -/
def GLCommand.isSetUniforms : GLCommand → Bool
  | setUniforms _ _ _ _ => true
  | _ => false

/-- The state of a `WebGLCanvasDrawer` relevant to `animate`: the dirty flag
`needsAnimation`, the viewport data copied from the mouse reader, the global
uniforms, and the per-track shaders. -/
structure DrawerState where
  needsAnimation : Bool
  minX : ℚ
  maxX : ℚ
  minY : ℚ
  maxY : ℚ
  currentXRange : ℚ × ℚ
  currentYRange : ℚ × ℚ
  viewportUniform : ℚ × ℚ × ℚ × ℚ
  pointSizeModifier : ℚ
  trackShaders : List VertexShaderState
  deriving DecidableEq, Repr

/-- `WebGLCanvasDrawer.getWebGLViewport()`: the current ranges mapped through
scales derived from the data extent, plus the point-size multiplier
`max(1, min(1/normalizedWidth, 1/normalizedHeight))`.  Source returns a
5-array; modelled as the 4 corner coordinates paired with the multiplier. -/
def getWebGLViewport (s : DrawerState) : (ℚ × ℚ × ℚ × ℚ) × ℚ :=
  let scaleXWindowSpace := scale (s.minX, s.maxX) (-1, 1)
  let scaleYWindowSpace := scale (s.minY, s.maxY) (-1, 1)
  let pointSize := max 1 (min
    (1 / (scaleXWindowSpace s.currentXRange.2 - scaleXWindowSpace s.currentXRange.1))
    (1 / (scaleYWindowSpace s.currentYRange.2 - scaleYWindowSpace s.currentYRange.1)))
  ((scaleXWindowSpace s.currentXRange.1, scaleYWindowSpace s.currentYRange.1,
    scaleXWindowSpace s.currentXRange.2, scaleYWindowSpace s.currentYRange.2),
   pointSize)

/-- `WebGLCanvasDrawer.animate()`: when the dirty flag is clear, only
reschedule (no GPU work, empty trace, state unchanged); when set, recompute
the viewport uniforms, rebind per-track uniforms, clear and configure
blending, issue one `drawBufferInfo` per track shader with vertex count
`aVertexPosition.data.length / 2`, and clear the flag.  `requestAnimationFrame`
and `this.tick()` belong to the external cadence source and carry no GPU
work. -/
def animate (s : DrawerState) : List GLCommand × DrawerState :=
  if !s.needsAnimation then ([], s)
  else
    let viewport := getWebGLViewport s
    let s1 := { s with viewportUniform := viewport.1,
                       pointSizeModifier := viewport.2 }
    let uniformCmds := s.trackShaders.enum.flatMap
      (fun p => [GLCommand.useProgram p.1,
        GLCommand.setUniforms p.1 viewport.1 viewport.2 p.2.uniforms])
    let drawCmds := s.trackShaders.enum.flatMap
      (fun p => [GLCommand.useProgram p.1, GLCommand.setBuffersAndAttributes p.1,
        GLCommand.draw p.1 p.2.drawMode (p.2.aVertexPositionData.length / 2)])
    (uniformCmds ++
      [GLCommand.clearColor, GLCommand.enableBlend, GLCommand.blendFunc,
        GLCommand.clear] ++ drawCmds,
     { s1 with needsAnimation := false })

/-! ## CoordinateScale: GenomeScale

Source: `createPairMapperToGenome`, `GenomeScale` and `genomeSizes` in the
genome-sizes source file (second half of src/src/epiviz.gl/webgl.js as
packed). -/

/-- `genomeSizes.hg38`: ordered chromosome id → base-pair count. -/
def genomeSizesHg38 : List (String × ℕ) :=
  [("1", 248956422), ("2", 242193529), ("3", 198295559), ("4", 190214555),
   ("5", 181538259), ("6", 170805979), ("7", 159345973), ("8", 145138636),
   ("9", 138394717), ("10", 135086622), ("11", 133797422), ("12", 133275309),
   ("13", 114364328), ("14", 107043718), ("15", 101991189), ("16", 90338345),
   ("17", 83257441), ("18", 80373285), ("19", 58617616), ("20", 64444167),
   ("21", 46709983), ("22", 50818468), ("X", 156040895), ("Y", 57227415)]

/-- `genomeSizes.hg19`. -/
def genomeSizesHg19 : List (String × ℕ) :=
  [("1", 249250621), ("2", 243199373), ("3", 198022430), ("4", 191154276),
   ("5", 180915260), ("6", 171115067), ("7", 159138663), ("8", 146364022),
   ("9", 141213431), ("10", 135534747), ("11", 135006516), ("12", 133851895),
   ("13", 115169878), ("14", 107349540), ("15", 102531392), ("16", 90354753),
   ("17", 81195210), ("18", 78077248), ("19", 59128983), ("20", 63025520),
   ("21", 48129895), ("22", 51304566), ("X", 155270560), ("Y", 59373566)]

/-- `genomeSizes.mm39`. -/
def genomeSizesMm39 : List (String × ℕ) :=
  [("1", 195154279), ("2", 181755017), ("3", 159745316), ("4", 156860686),
   ("5", 151758149), ("6", 149588044), ("7", 144995196), ("8", 130127694),
   ("9", 124359700), ("10", 130530862), ("11", 121973369), ("12", 120092757),
   ("13", 120883175), ("14", 125139656), ("15", 104073951), ("16", 98008968),
   ("17", 95294699), ("18", 90720763), ("19", 61420004), ("X", 169476592),
   ("Y", 91455967)]

/-- The cumulative scan building `chrStarts` in `createPairMapperToGenome`:
each chromosome is paired with the sum of the sizes preceding it. -/
def chrStartsAux : ℕ → List (String × ℕ) → List (String × ℕ)
  | _, [] => []
  | cumulativeTotal, (key, value) :: rest =>
      (key, cumulativeTotal) :: chrStartsAux (cumulativeTotal + value) rest

/-- `chrStarts` of `createPairMapperToGenome(genomeId)`. -/
def chrStarts (chrSizes : List (String × ℕ)) : List (String × ℕ) :=
  chrStartsAux 0 chrSizes

/-- The mapper returned by `createPairMapperToGenome`:
`(chr, pairNum) => chrStarts.get(chr) + pairNum`; a chromosome missing from
the table gives `undefined` (`none`). -/
def mapPairToGenomeIndex (chrSizes : List (String × ℕ)) (chr : String)
    (pairNum : ℕ) : Option ℕ :=
  ((chrStarts chrSizes).lookup chr).map (· + pairNum)

/-- Character-level model of JS `String.prototype.split(sep)` for a one-char
separator (accumulator holds the current segment reversed). -/
def splitOnCharAux (sep : Char) : List Char → List Char → List (List Char)
  | [], acc => [acc.reverse]
  | c :: rest, acc =>
      if c = sep then acc.reverse :: splitOnCharAux sep rest []
      else splitOnCharAux sep rest (c :: acc)

/-- JS `s.split(sep)` for a one-character separator. -/
def splitOnChar (sep : Char) (s : String) : List String :=
  (splitOnCharAux sep s.data []).map String.mk

/-- Decimal accumulation for `parseInt`. -/
def parseNatAux : List Char → ℕ → Option ℕ
  | [], acc => some acc
  | c :: rest, acc =>
      if c.isDigit then parseNatAux rest (acc * 10 + (c.toNat - 48)) else none

/-- JS `parseInt(s)` restricted to the well-formed all-digit decimal numerals
that genome coordinates use (anything else gives `NaN`, i.e. `none`). -/
def parseNatStr (s : String) : Option ℕ :=
  if s.data = [] then none else parseNatAux s.data 0

/-- Parse `"chr<C>:<P>"`: `substring(3)` then `split(":")`, destructured into
the chromosome id and `parseInt` of the position (JS `substring` is the
character drop `s.data.drop`). -/
def parseGenomeCoord (s : String) : String × Option ℕ :=
  match splitOnChar ':' (String.mk (s.data.drop 3)) with
  | chr :: pair :: _ => (chr, parseNatStr pair)
  | chr :: [] => (chr, none)
  | [] => ("", none)

/-- The data the `GenomeScale` constructor stores: the genome table and the
genome-wide indices of the requested domain endpoints. -/
structure GenomeScaleData where
  chrSizes : List (String × ℕ)
  firstPairInDomain : ℕ
  lastPairInDomain : ℕ
  deriving DecidableEq, Repr

/-- The `GenomeScale` constructor on `genomeSizes[genomeId] = chrSizes` and a
two-string domain; `none` models a JS evaluation in which parsing or the
chromosome lookup yields `NaN`/`undefined`. -/
def mkGenomeScale (chrSizes : List (String × ℕ)) (domain : String × String) :
    Option GenomeScaleData :=
  let start := parseGenomeCoord domain.1
  let stop := parseGenomeCoord domain.2
  match start.2, stop.2 with
  | some startPair, some endPair =>
      match mapPairToGenomeIndex chrSizes start.1 startPair,
          mapPairToGenomeIndex chrSizes stop.1 endPair with
      | some firstPairInDomain, some lastPairInDomain =>
          some ⟨chrSizes, firstPairInDomain, lastPairInDomain⟩
      | _, _ => none
  | _, _ => none

/-- `this.mapGenomeIndexToClipSpace`: linear scale from the requested domain
endpoints' genome indices to `[-1, 1]`. -/
def GenomeScaleData.mapGenomeIndexToClipSpace (g : GenomeScaleData) : ℚ → ℚ :=
  scale ((g.firstPairInDomain : ℚ), (g.lastPairInDomain : ℚ)) (-1, 1)

/-- `this.mapGenomeIndexToClipSpaceInverse`: the scale with domain and range
swapped. -/
def GenomeScaleData.mapGenomeIndexToClipSpaceInverse (g : GenomeScaleData) :
    ℚ → ℚ :=
  scale (-1, 1) ((g.firstPairInDomain : ℚ), (g.lastPairInDomain : ℚ))

/-- `GenomeScale.toClipSpaceFromParts(chr, pair)`. -/
def GenomeScaleData.toClipSpaceFromParts (g : GenomeScaleData) (chr : String)
    (pair : ℕ) : Option ℚ :=
  (mapPairToGenomeIndex g.chrSizes chr pair).map
    (fun idx => g.mapGenomeIndexToClipSpace (idx : ℚ))

/-- `GenomeScale.toClipSpaceFromString(pairStr)`. -/
def GenomeScaleData.toClipSpaceFromString (g : GenomeScaleData)
    (pairStr : String) : Option ℚ :=
  let parsed := parseGenomeCoord pairStr
  parsed.2.bind (g.toClipSpaceFromParts parsed.1)

/-- The scan loop of `GenomeScale.inverse`: find the first chromosome with
`cumulativeTotal + pairCount >= genomeSpot` and return it with the local
position `genomeSpot - cumulativeTotal`; falling off the table leaves the JS
variables `undefined` (`none`). -/
def inverseScan (genomeSpot : ℤ) : ℤ → List (String × ℕ) → Option (String × ℤ)
  | _, [] => none
  | cumulativeTotal, (chrKey, pairCount) :: rest =>
      if cumulativeTotal + (pairCount : ℤ) ≥ genomeSpot then
        some (chrKey, genomeSpot - cumulativeTotal)
      else inverseScan genomeSpot (cumulativeTotal + (pairCount : ℤ)) rest

/-- `GenomeScale.inverse(num)` without formatting: `Math.floor` of the inverse
scale, then the chromosome scan; result `(chrId, chrLoc)`. -/
def GenomeScaleData.inverse (g : GenomeScaleData) (num : ℚ) :
    Option (String × ℤ) :=
  let genomeSpot := ⌊g.mapGenomeIndexToClipSpaceInverse num⌋
  inverseScan genomeSpot 0 g.chrSizes

/-- The string `GenomeScale.inverse` returns (unformatted branch):
`` `chr${chrId}:${chrLoc}` ``. -/
def GenomeScaleData.inverseString (g : GenomeScaleData) (num : ℚ) :
    Option String :=
  (g.inverse num).map (fun p => "chr" ++ p.1 ++ ":" ++ toString p.2)

/-! ## getViewportForSpecification

Source: utilities.js lines 53-93.  A specification is a list of tracks; each
track carries `x`/`y` channel objects (dereferenced unconditionally by the
source) and optional `width`/`height` channel objects. -/

/-- A channel as `getViewportForSpecification` reads it: optional `domain`
array and optional constant `value`. -/
structure ViewChannel where
  domain : Option (ℚ × ℚ)
  value : Option ℚ
  deriving DecidableEq, Repr

/-- A track as `getViewportForSpecification` reads it. -/
structure SpecTrack where
  x : ViewChannel
  y : ViewChannel
  width : Option ViewChannel
  height : Option ViewChannel
  deriving DecidableEq, Repr

/-- The x-domain resolution for one track: `track.x.domain`, or — when absent
and `track.x.value !== undefined` — `track.width.domain`.  The outer `none`
models the `TypeError` of reading `track.width.domain` when `track.width` is
undefined (the source does not guard `track.width`, unlike `track.height`). -/
def trackXDomain (t : SpecTrack) : Option (Option (ℚ × ℚ)) :=
  match t.x.domain with
  | some d => some (some d)
  | none =>
      match t.x.value with
      | none => some none
      | some _ =>
          match t.width with
          | none => none
          | some w => some w.domain

/-- The y-domain resolution for one track: `track.y.domain`, or — when absent,
`track.y.value !== undefined`, and `track.height` exists —
`track.height.domain`.  The height access is guarded in the source, so no
error can occur. -/
def trackYDomain (t : SpecTrack) : Option (ℚ × ℚ) :=
  match t.y.domain with
  | some d => some d
  | none =>
      match t.y.value, t.height with
      | some _, some h => h.domain
      | _, _ => none

/-- The x-domain a track effectively supplies according to the claim (C10):
its own domain, or the width-channel domain when x is given as a constant
value.  This is the claim-side reading; it agrees with `trackXDomain`
exactly on tracks where the unguarded width dereference cannot throw. -/
def claimXDomain (t : SpecTrack) : Option (ℚ × ℚ) :=
  match t.x.domain with
  | some d => some d
  | none =>
      match t.x.value with
      | some _ => t.width.bind (fun w => w.domain)
      | none => none

/-- The running minimum of the `forEach` loop, starting from
`Number.POSITIVE_INFINITY` (`none`): `d < smallest ? d : smallest`. -/
def updateSmallest (acc : Option ℚ) (d : ℚ) : Option ℚ :=
  match acc with
  | none => some d
  | some m => some (if d < m then d else m)

/-- The running maximum, starting from `Number.NEGATIVE_INFINITY` (`none`):
`d > largest ? d : largest`. -/
def updateLargest (acc : Option ℚ) (d : ℚ) : Option ℚ :=
  match acc with
  | none => some d
  | some m => some (if d > m then d else m)

/-- `getViewportForSpecification(specification)`: resolve each track's
effective domains, accumulate min/max per dimension, and replace untouched
accumulators by the defaults `-1`/`1`.  Overall `none` models the function
throwing the unguarded-width `TypeError`. -/
def getViewportForSpecification (tracks : List SpecTrack) :
    Option (ℚ × ℚ × ℚ × ℚ) :=
  match tracks.mapM trackXDomain with
  | none => none
  | some xDomains =>
      let yDomains := tracks.map trackYDomain
      let smallestX := xDomains.foldl
        (fun acc od => match od with | some d => updateSmallest acc d.1 | none => acc) none
      let largestX := xDomains.foldl
        (fun acc od => match od with | some d => updateLargest acc d.2 | none => acc) none
      let smallestY := yDomains.foldl
        (fun acc od => match od with | some d => updateSmallest acc d.1 | none => acc) none
      let largestY := yDomains.foldl
        (fun acc od => match od with | some d => updateLargest acc d.2 | none => acc) none
      some (smallestX.getD (-1), largestX.getD 1,
            smallestY.getD (-1), largestY.getD 1)

/-! Helper lemmas: non-finiteness propagates through `*` and `+`, and a finite
numerator divided by `fin 0` is never finite. -/

theorem JSNum.isFinite_div_fin_zero (a : ℚ) :
    (JSNum.div (JSNum.fin a) (JSNum.fin 0)).isFinite = false := by
  simp only [JSNum.div, if_pos rfl]
  by_cases h : a = 0
  · simp [h, JSNum.isFinite]
  · by_cases h' : 0 < a <;> simp [h, h', JSNum.isFinite]

theorem JSNum.isFinite_ite (c : Prop) [Decidable c] (a b : JSNum)
    (ha : a.isFinite = false) (hb : b.isFinite = false) :
    (if c then a else b).isFinite = false := by
  split <;> assumption

theorem JSNum.isFinite_mul_of_left (a b : JSNum) (h : a.isFinite = false) :
    (a.mul b).isFinite = false := by
  cases a <;> cases b <;>
    first
      | rfl
      | exact JSNum.isFinite_ite _ _ _ rfl (JSNum.isFinite_ite _ _ _ rfl rfl)
      | simp [JSNum.isFinite] at h

theorem JSNum.isFinite_add_of_left (a b : JSNum) (h : a.isFinite = false) :
    (a.add b).isFinite = false := by
  cases a <;> cases b <;> simp [JSNum.add, JSNum.isFinite] at *

theorem JSNum.sub_self_fin (d : ℚ) :
    (JSNum.fin d).sub (JSNum.fin d) = JSNum.fin 0 := by
  simp [JSNum.sub, JSNum.neg, JSNum.add]

theorem JSNum.sub_fin (a b : ℚ) :
    (JSNum.fin a).sub (JSNum.fin b) = JSNum.fin (a - b) := by
  simp [JSNum.sub, JSNum.neg, JSNum.add, sub_eq_add_neg]

theorem JSNum.mul_fin (a b : ℚ) :
    (JSNum.fin a).mul (JSNum.fin b) = JSNum.fin (a * b) := rfl

theorem JSNum.add_fin (a b : ℚ) :
    (JSNum.fin a).add (JSNum.fin b) = JSNum.fin (a + b) := rfl

theorem JSNum.div_fin (a b : ℚ) (hb : b ≠ 0) :
    (JSNum.fin a).div (JSNum.fin b) = JSNum.fin (a / b) := by
  simp [JSNum.div, hb]

/-- On finite inputs with a non-degenerate domain, the IEEE-style embedding of
`scale` agrees with the exact rational embedding. -/
theorem scaleJS_agrees_with_scale (d0 d1 r0 r1 x : ℚ) (hd : d0 ≠ d1) :
    scaleJS (JSNum.fin d0, JSNum.fin d1) (JSNum.fin r0, JSNum.fin r1)
      (JSNum.fin x) = JSNum.fin (scale (d0, d1) (r0, r1) x) := by
  have hd' : d1 - d0 ≠ 0 := sub_ne_zero.mpr (Ne.symm hd)
  simp only [scaleJS, scale, JSNum.sub_fin, JSNum.div_fin _ _ hd',
    JSNum.mul_fin, JSNum.add_fin]

/-! ### Lemmas about the axis update of `_onWheel` / `_onPan` -/

theorem axisUpdate_mem (locked : Bool) (mn mx : ℚ) (prev cand : ℚ × ℚ)
    (h0 : mn ≤ prev.1) (h1 : prev.1 ≤ prev.2) (h2 : prev.2 ≤ mx) :
    mn ≤ (axisUpdate locked mn mx prev cand).1 ∧
    (axisUpdate locked mn mx prev cand).1 ≤ (axisUpdate locked mn mx prev cand).2 ∧
    (axisUpdate locked mn mx prev cand).2 ≤ mx := by
  simp only [axisUpdate, clampAxis]
  split_ifs with hl hv
  · exact ⟨h0, h1, h2⟩
  · exact ⟨le_max_right _ _, by simpa [validRange, ge_iff_le] using hv,
      min_le_right _ _⟩
  · exact ⟨h0, h1, h2⟩

theorem axisUpdate_rollback (locked : Bool) (mn mx : ℚ) (prev cand : ℚ × ℚ)
    (h : validRange (clampAxis mn mx cand) = false) :
    axisUpdate locked mn mx prev cand = prev := by
  simp [axisUpdate, h]

theorem onWheel_inv (s : MouseReaderState) (wd lx ly : ℚ)
    (h : viewportBoundsInv s) : viewportBoundsInv (onWheel s wd lx ly) := by
  obtain ⟨hx0, hx1, hx2, hy0, hy1, hy2⟩ := h
  have hX := axisUpdate_mem s.lockedX s.minX s.maxX s.currentXRange
    (wheelXCandidate s wd lx ly) hx0 hx1 hx2
  have hY := axisUpdate_mem s.lockedY s.minY s.maxY s.currentYRange
    (wheelYCandidate (onWheelX s wd lx ly) wd lx ly) hy0 hy1 hy2
  simp only [onWheel, onWheelY, viewportBoundsInv] at *
  simp only [onWheelX] at *
  exact ⟨hX.1, hX.2.1, hX.2.2, hY.1, hY.2.1, hY.2.2⟩

theorem onPan_inv (s : MouseReaderState) (mx my : ℚ)
    (h : viewportBoundsInv s) : viewportBoundsInv (onPan s mx my) := by
  obtain ⟨hx0, hx1, hx2, hy0, hy1, hy2⟩ := h
  have hX := axisUpdate_mem s.lockedX s.minX s.maxX s.currentXRange
    (panXCandidate s mx) hx0 hx1 hx2
  have hY := axisUpdate_mem s.lockedY s.minY s.maxY s.currentYRange
    (panYCandidate (onPanX s mx) my) hy0 hy1 hy2
  simp only [onPan, onPanY, viewportBoundsInv] at *
  simp only [onPanX] at *
  exact ⟨hX.1, hX.2.1, hX.2.2, hY.1, hY.2.1, hY.2.2⟩

/-! ### The claims -/

/-- C1: starting from a viewport state whose current ranges lie inside the
data extent and are not inverted, every `_onWheel` step and every `_onPan`
step, for any event input, preserves those bounds; and whenever the clamped
candidate range of an axis is inverted, that axis is rolled back to its exact
pre-operation value. -/
theorem wheel_pan_preserve_viewport_bounds (s : MouseReaderState)
    (wheelDelta layerX layerY movementX movementY : ℚ)
    (h : viewportBoundsInv s) :
    viewportBoundsInv (onWheel s wheelDelta layerX layerY) ∧
    viewportBoundsInv (onPan s movementX movementY) ∧
    (validRange (clampAxis s.minX s.maxX
        (wheelXCandidate s wheelDelta layerX layerY)) = false →
      (onWheel s wheelDelta layerX layerY).currentXRange = s.currentXRange) ∧
    (validRange (clampAxis s.minY s.maxY
        (wheelYCandidate (onWheelX s wheelDelta layerX layerY)
          wheelDelta layerX layerY)) = false →
      (onWheel s wheelDelta layerX layerY).currentYRange = s.currentYRange) ∧
    (validRange (clampAxis s.minX s.maxX (panXCandidate s movementX)) = false →
      (onPan s movementX movementY).currentXRange = s.currentXRange) ∧
    (validRange (clampAxis s.minY s.maxY
        (panYCandidate (onPanX s movementX) movementY)) = false →
      (onPan s movementX movementY).currentYRange = s.currentYRange) := by
  refine ⟨onWheel_inv s _ _ _ h, onPan_inv s _ _ h, ?_, ?_, ?_, ?_⟩
  · intro hv
    simp only [onWheel, onWheelY, onWheelX]
    simpa using axisUpdate_rollback s.lockedX s.minX s.maxX s.currentXRange _ hv
  · intro hv
    simp only [onWheel, onWheelY]
    simpa using axisUpdate_rollback (onWheelX s wheelDelta layerX layerY).lockedY
      s.minY s.maxY s.currentYRange _ (by simpa [onWheelX] using hv)
  · intro hv
    simp only [onPan, onPanY, onPanX]
    simpa using axisUpdate_rollback s.lockedX s.minX s.maxX s.currentXRange _ hv
  · intro hv
    simp only [onPan, onPanY]
    simpa using axisUpdate_rollback (onPanX s movementX).lockedY
      s.minY s.maxY s.currentYRange _ (by simpa [onPanX] using hv)

/-- Witness for C1 at a concrete state and concrete wheel/pan events. -/
theorem wheel_pan_preserve_viewport_bounds_witness :
    viewportBoundsInv
      (onWheel (MouseReaderState.mk 0 10 0 10 (2, 5) (3, 7) false false 100 100)
        100 10 20) ∧
    viewportBoundsInv
      (onPan (MouseReaderState.mk 0 10 0 10 (2, 5) (3, 7) false false 100 100)
        3 4) :=
  ⟨(wheel_pan_preserve_viewport_bounds
      (MouseReaderState.mk 0 10 0 10 (2, 5) (3, 7) false false 100 100)
      100 10 20 3 4 (by norm_num [viewportBoundsInv])).1,
   (wheel_pan_preserve_viewport_bounds
      (MouseReaderState.mk 0 10 0 10 (2, 5) (3, 7) false false 100 100)
      100 10 20 3 4 (by norm_num [viewportBoundsInv])).2.1⟩

/-- C2 corrected, counterexample: with domain `[0,1]` (so `d0 ≠ d1`), range
`[0,0]` and `x = 0`, the JS evaluation of
`scale(range,domain)(scale(domain,range)(x))` is `NaN`, not `x`: the
inverse-composition law fails when the range is degenerate even though the
domain is not. -/
theorem scale_roundtrip_counterexample :
    ((0 : ℚ) ≠ 1) ∧
    scaleJS (JSNum.fin 0, JSNum.fin 1) (JSNum.fin 0, JSNum.fin 0)
      (JSNum.fin 0) = JSNum.fin 0 ∧
    scaleJS (JSNum.fin 0, JSNum.fin 0) (JSNum.fin 0, JSNum.fin 1)
      (scaleJS (JSNum.fin 0, JSNum.fin 1) (JSNum.fin 0, JSNum.fin 0)
        (JSNum.fin 0)) = JSNum.nan ∧
    JSNum.nan ≠ JSNum.fin 0 := by
  refine ⟨by norm_num, ?_, ?_, by simp⟩ <;>
    simp [scaleJS, JSNum.sub, JSNum.neg, JSNum.add, JSNum.mul, JSNum.div]

/-- C2 amended: for `d0 ≠ d1` the scale maps the domain endpoints exactly to
the range endpoints, and the swapped-argument scale is a two-sided inverse
provided the range is non-degenerate as well (`r0 ≠ r1`). -/
theorem scale_endpoints_and_roundtrip (d0 d1 r0 r1 x : ℚ) (hd : d0 ≠ d1) :
    scale (d0, d1) (r0, r1) d0 = r0 ∧
    scale (d0, d1) (r0, r1) d1 = r1 ∧
    (r0 ≠ r1 → scale (r0, r1) (d0, d1) (scale (d0, d1) (r0, r1) x) = x) := by
  have hd' : d1 - d0 ≠ 0 := sub_ne_zero.mpr (Ne.symm hd)
  refine ⟨?_, ?_, fun hr => ?_⟩
  · simp only [scale]; field_simp; ring
  · simp only [scale]; ring
  · have hr' : r1 - r0 ≠ 0 := sub_ne_zero.mpr (Ne.symm hr)
    simp only [scale]; field_simp; ring

/-- Witness for C2 (amended) at domain `[0,2]`, range `[1,5]`, `x = 7`. -/
theorem scale_endpoints_and_roundtrip_witness :
    scale (0, 2) (1, 5) 0 = 1 ∧ scale (0, 2) (1, 5) 2 = 5 ∧
    scale (1, 5) (0, 2) (scale (0, 2) (1, 5) 7) = 7 :=
  ⟨(scale_endpoints_and_roundtrip 0 2 1 5 7 (by norm_num)).1,
   (scale_endpoints_and_roundtrip 0 2 1 5 7 (by norm_num)).2.1,
   (scale_endpoints_and_roundtrip 0 2 1 5 7 (by norm_num)).2.2 (by norm_num)⟩

/-- C3 corrected, counterexample: `scale([0,0],[0,1])` raises no error at all
(the source has no validity check), and its result function silently produces
the non-finite value `NaN` at `x = 5`. -/
theorem scale_degenerate_domain_counterexample :
    scaleJS (JSNum.fin 0, JSNum.fin 0) (JSNum.fin 0, JSNum.fin 1)
      (JSNum.fin 5) = JSNum.nan ∧
    (scaleJS (JSNum.fin 0, JSNum.fin 0) (JSNum.fin 0, JSNum.fin 1)
      (JSNum.fin 5)).isFinite = false := by
  refine ⟨?_, ?_⟩ <;>
    simp [scaleJS, JSNum.sub, JSNum.neg, JSNum.add, JSNum.mul, JSNum.div,
      JSNum.isFinite]

/-- C3 amended: the constructor never checks the domain and never throws; for
every degenerate domain `[d,d]`, every range and every finite input, the
returned function silently produces a non-finite value (`NaN` or
`±Infinity`). -/
theorem scale_degenerate_domain_nonfinite (d r0 r1 x : ℚ) :
    (scaleJS (JSNum.fin d, JSNum.fin d) (JSNum.fin r0, JSNum.fin r1)
      (JSNum.fin x)).isFinite = false := by
  have hslope : (((JSNum.fin r1).sub (JSNum.fin r0)).div
      ((JSNum.fin d).sub (JSNum.fin d))).isFinite = false := by
    rw [JSNum.sub_self_fin, JSNum.sub_fin]
    exact JSNum.isFinite_div_fin_zero _
  simp only [scaleJS]
  exact JSNum.isFinite_add_of_left _ _ (JSNum.isFinite_mul_of_left _ _ hslope)

/-- C7: on mouse-up, box mode discards silently unless the accumulator holds
exactly 4 scalars (2 points), lasso mode discards below 6 scalars (3 points);
otherwise the accumulated points are emitted via `_onSelect`. -/
theorem mouseup_selection_thresholds (pts : List ℚ) :
    (pts.length ≠ 4 → mouseupSelection "box" pts = ([], none)) ∧
    (pts.length = 4 → mouseupSelection "box" pts = (pts, some pts)) ∧
    (pts.length < 6 → mouseupSelection "lasso" pts = ([], none)) ∧
    (6 ≤ pts.length → mouseupSelection "lasso" pts = (pts, some pts)) := by
  refine ⟨fun h => ?_, fun h => ?_, fun h => ?_, fun h => ?_⟩
  · simp [mouseupSelection, h]
  · simp [mouseupSelection, h]
  · simp [mouseupSelection, h]
  · simp [mouseupSelection, Nat.not_lt.mpr h]

/-- Witness for C7: a full box selection is emitted, a 1-point lasso is
discarded. -/
theorem mouseup_selection_thresholds_witness :
    mouseupSelection "box" [1, 2, 3, 4] = ([1, 2, 3, 4], some [1, 2, 3, 4]) ∧
    mouseupSelection "lasso" [1, 2] = ([], none) :=
  ⟨(mouseup_selection_thresholds [1, 2, 3, 4]).2.1 (by decide),
   (mouseup_selection_thresholds [1, 2]).2.2.1 (by decide)⟩

/-- C9: `buildShader` is idempotent: on a fresh shader the first call appends
the fixed epilogue exactly once, and the second call returns the identical
cached text and state (so every subsequent call does too). -/
theorem buildShader_idempotent (s : VertexShaderState) (h : s.built = false) :
    (buildShader s).1 = s.shader ++ vertexShaderSuffix ∧
    (buildShader (buildShader s).2).1 = (buildShader s).1 ∧
    (buildShader (buildShader s).2).2 = (buildShader s).2 := by
  simp [buildShader, h]

/-- Witness for C9 on a freshly constructed `VertexShader`. -/
theorem buildShader_idempotent_witness :
    (buildShader (VertexShaderState.init "POINTS")).1 =
      baseVertexShader ++ vertexShaderSuffix ∧
    (buildShader (buildShader (VertexShaderState.init "POINTS")).2).1 =
      (buildShader (VertexShaderState.init "POINTS")).1 :=
  ⟨(buildShader_idempotent (VertexShaderState.init "POINTS") rfl).1,
   (buildShader_idempotent (VertexShaderState.init "POINTS") rfl).2.1⟩

/-- C5: `addMarkToBuffers` appends the mark's channel value exactly once per
emitted vertex to every non-position channel buffer (a 6-vertex mark with 12
position scalars gets 6 copies), so on a shader whose buffers satisfy
`len(buffer) = len(positionBuffer)/2` the invariant is preserved. -/
theorem addMark_channel_sync (s : VertexShaderState) (vertices : List ℚ)
    (mark : String → ℚ) (hEven : vertices.length % 2 = 0)
    (hInv : ∀ c ∈ s.channelAttributes,
      c.2.length = s.aVertexPositionData.length / 2) :
    (addMarkToBuffers s vertices mark).channelAttributes =
      s.channelAttributes.map (fun c =>
        (c.1, c.2 ++ List.replicate (vertices.length / 2) (mark c.1))) ∧
    ∀ c ∈ (addMarkToBuffers s vertices mark).channelAttributes,
      c.2.length = (addMarkToBuffers s vertices mark).aVertexPositionData.length / 2 := by
  have h2 : (vertices.length + 1) / 2 = vertices.length / 2 := by omega
  constructor
  · simp only [addMarkToBuffers, h2]
  · intro c hc
    simp only [addMarkToBuffers, List.mem_map] at hc
    obtain ⟨c0, hc0, rfl⟩ := hc
    have hlen := hInv c0 hc0
    simp only [addMarkToBuffers, List.length_append, List.length_replicate]
    omega

/-- Witness for C5: a 6-vertex rectangle mark appends 6 copies of the mark's
color to a color buffer that starts in sync. -/
theorem addMark_channel_sync_witness :
    (addMarkToBuffers
      (VertexShaderState.mk "sh" false [] [0, 0, 1, 1] [("color", [7, 7])]
        "TRIANGLES")
      [0, 0, 1, 0, 1, 1, 0, 0, 1, 1, 0, 1] (fun _ => 3)).channelAttributes =
      [("color", [7, 7] ++ List.replicate 6 3)] := by
  have h := (addMark_channel_sync
    (VertexShaderState.mk "sh" false [] [0, 0, 1, 1] [("color", [7, 7])]
      "TRIANGLES")
    [0, 0, 1, 0, 1, 1, 0, 0, 1, 1, 0, 1] (fun _ => 3) (by rfl)
    (by intro c hc; rw [List.mem_singleton] at hc; subst hc; rfl)).1
  simpa using h

/-! ### Lemmas about the command trace of `animate` -/

theorem filter_uniformBlock_isDraw (l : List (ℕ × VertexShaderState))
    (vp : ℚ × ℚ × ℚ × ℚ) (ps : ℚ) :
    (l.flatMap (fun p => [GLCommand.useProgram p.1,
        GLCommand.setUniforms p.1 vp ps p.2.uniforms])).filter
      GLCommand.isDraw = [] := by
  induction l with
  | nil => rfl
  | cons a t ih =>
      simp [List.flatMap_cons, List.filter_append, ih, List.filter,
        GLCommand.isDraw]

theorem filter_uniformBlock_isSetUniforms (l : List (ℕ × VertexShaderState))
    (vp : ℚ × ℚ × ℚ × ℚ) (ps : ℚ) :
    (l.flatMap (fun p => [GLCommand.useProgram p.1,
        GLCommand.setUniforms p.1 vp ps p.2.uniforms])).filter
      GLCommand.isSetUniforms =
      l.map (fun p => GLCommand.setUniforms p.1 vp ps p.2.uniforms) := by
  induction l with
  | nil => rfl
  | cons a t ih =>
      rw [List.flatMap_cons, List.filter_append, ih, List.map_cons]
      rfl

theorem filter_drawBlock_isDraw (l : List (ℕ × VertexShaderState)) :
    (l.flatMap (fun p => [GLCommand.useProgram p.1,
        GLCommand.setBuffersAndAttributes p.1,
        GLCommand.draw p.1 p.2.drawMode
          (p.2.aVertexPositionData.length / 2)])).filter GLCommand.isDraw =
      l.map (fun p => GLCommand.draw p.1 p.2.drawMode
        (p.2.aVertexPositionData.length / 2)) := by
  induction l with
  | nil => rfl
  | cons a t ih =>
      rw [List.flatMap_cons, List.filter_append, ih, List.map_cons]
      rfl

theorem filter_drawBlock_isSetUniforms (l : List (ℕ × VertexShaderState)) :
    (l.flatMap (fun p => [GLCommand.useProgram p.1,
        GLCommand.setBuffersAndAttributes p.1,
        GLCommand.draw p.1 p.2.drawMode
          (p.2.aVertexPositionData.length / 2)])).filter
      GLCommand.isSetUniforms = [] := by
  induction l with
  | nil => rfl
  | cons a t ih =>
      simp [List.flatMap_cons, List.filter_append, ih, List.filter,
        GLCommand.isSetUniforms]

/-- C6: a frame with a clear dirty flag performs no GPU work and leaves the
state unchanged; a dirty frame recomputes the viewport and point-size
uniforms, rebinds each track's uniforms exactly once, issues exactly one draw
call per track shader, and clears the flag. -/
theorem animate_dirty_flag_protocol (s : DrawerState) :
    (s.needsAnimation = false → animate s = ([], s)) ∧
    (s.needsAnimation = true →
      (animate s).2 = { s with needsAnimation := false,
                               viewportUniform := (getWebGLViewport s).1,
                               pointSizeModifier := (getWebGLViewport s).2 } ∧
      (animate s).1.filter GLCommand.isSetUniforms =
        s.trackShaders.enum.map (fun p => GLCommand.setUniforms p.1
          (getWebGLViewport s).1 (getWebGLViewport s).2 p.2.uniforms) ∧
      (animate s).1.filter GLCommand.isDraw =
        s.trackShaders.enum.map (fun p => GLCommand.draw p.1 p.2.drawMode
          (p.2.aVertexPositionData.length / 2))) := by
  constructor
  · intro h; simp [animate, h]
  · intro h
    simp only [animate, h, Bool.not_true, Bool.false_eq_true, if_false]
    refine ⟨by trivial, ?_, ?_⟩
    · simp [List.filter_append, filter_uniformBlock_isSetUniforms,
        filter_drawBlock_isSetUniforms, List.filter, GLCommand.isSetUniforms]
    · simp [List.filter_append, filter_uniformBlock_isDraw,
        filter_drawBlock_isDraw, List.filter, GLCommand.isDraw]

/-- Witness for C6: a clean frame is a no-op; a dirty frame with two track
shaders clears the flag and issues exactly two draw calls. -/
theorem animate_dirty_flag_protocol_witness :
    animate (DrawerState.mk false 0 10 0 10 (0, 10) (0, 10) (-1, -1, 1, 1) 1
        [VertexShaderState.init "POINTS"]) =
      ([], DrawerState.mk false 0 10 0 10 (0, 10) (0, 10) (-1, -1, 1, 1) 1
        [VertexShaderState.init "POINTS"]) ∧
    (animate (DrawerState.mk true 0 10 0 10 (0, 10) (0, 10) (-1, -1, 1, 1) 1
        [VertexShaderState.init "POINTS",
         VertexShaderState.init "TRIANGLES"])).2.needsAnimation = false ∧
    ((animate (DrawerState.mk true 0 10 0 10 (0, 10) (0, 10) (-1, -1, 1, 1) 1
        [VertexShaderState.init "POINTS",
         VertexShaderState.init "TRIANGLES"])).1.filter
      GLCommand.isDraw).length = 2 := by
  refine ⟨(animate_dirty_flag_protocol _).1 rfl, ?_, ?_⟩
  · rw [((animate_dirty_flag_protocol _).2 rfl).1]
  · rw [((animate_dirty_flag_protocol _).2 rfl).2.2, List.length_map]
    rfl

/-! ### Lemmas about the genome offset table -/

theorem chrStartsAux_lookup (sizes : List (String × ℕ)) :
    ∀ (acc : ℕ), (sizes.map Prod.fst).Nodup →
    ∀ (i : Fin sizes.length),
      (chrStartsAux acc sizes).lookup (sizes.get i).1 =
        some (acc + ((sizes.take i).map Prod.snd).sum) := by
  induction sizes with
  | nil => exact fun acc _ i => absurd i.2 (by simp)
  | cons hd tl ih =>
      intro acc hnd i
      rcases i with ⟨iv, hi⟩
      cases iv with
      | zero => simp [chrStartsAux, List.lookup]
      | succ n =>
          have hn : n < tl.length := by simpa using hi
          have hcons : (hd.1 :: tl.map Prod.fst).Nodup := by simpa using hnd
          have hhd : hd.1 ∉ tl.map Prod.fst := (List.nodup_cons.mp hcons).1
          have hnd2 : (tl.map Prod.fst).Nodup := (List.nodup_cons.mp hcons).2
          have hmem : (tl.get ⟨n, hn⟩).1 ∈ tl.map Prod.fst :=
            List.mem_map_of_mem _ (tl.get_mem _ _)
          have hne : (tl.get ⟨n, hn⟩).1 ≠ hd.1 := fun hEq => hhd (hEq ▸ hmem)
          have hbeq : ((tl.get ⟨n, hn⟩).1 == hd.1) = false :=
            beq_eq_false_iff_ne.mpr hne
          have step := ih (acc + hd.2) hnd2 ⟨n, hn⟩
          have hget : ((hd :: tl).get ⟨n + 1, hi⟩) = tl.get ⟨n, hn⟩ := rfl
          rw [hget]
          show List.lookup (tl.get ⟨n, hn⟩).1
            ((hd.1, acc) :: chrStartsAux (acc + hd.2) tl) = _
          rw [List.lookup, hbeq, step]
          have htake :
              ((hd :: tl).take
                (↑(⟨n + 1, hi⟩ : Fin (hd :: tl).length))).map Prod.snd =
              hd.2 :: (tl.take n).map Prod.snd := rfl
          rw [htake]
          simp
          omega

/-- C4: the pair mapper sends `(C, P)` to `offset(C) + P`, where `offset(C)`
is the cumulative sum of the chromosome lengths preceding `C` in table order
(for every table with distinct chromosome ids, which covers hg38, hg19 and
mm39); and the `GenomeScale("hg38", ["chr1:1","chr1:1000"])` instance maps
`"chr1:1"` to clip-space `-1`, `"chr1:1000"` to `1`, and its inverse at `-1`
recovers chromosome 1 at position 1. -/
theorem genomeScale_offsets_and_clipspace :
    (∀ (sizes : List (String × ℕ)), (sizes.map Prod.fst).Nodup →
      ∀ (i : Fin sizes.length) (P : ℕ),
        mapPairToGenomeIndex sizes (sizes.get i).1 P =
          some (((sizes.take i).map Prod.snd).sum + P)) ∧
    (mkGenomeScale genomeSizesHg38 ("chr1:1", "chr1:1000")).bind
      (fun g => g.toClipSpaceFromString "chr1:1") = some (-1) ∧
    (mkGenomeScale genomeSizesHg38 ("chr1:1", "chr1:1000")).bind
      (fun g => g.toClipSpaceFromString "chr1:1000") = some 1 ∧
    (mkGenomeScale genomeSizesHg38 ("chr1:1", "chr1:1000")).map
      (fun g => g.inverseString (-1)) = some (some "chr1:1") := by
  have hmk : mkGenomeScale genomeSizesHg38 ("chr1:1", "chr1:1000") =
      some ⟨genomeSizesHg38, 1, 1000⟩ := rfl
  refine ⟨?_, ?_, ?_, ?_⟩
  · intro sizes hnd i P
    show ((chrStartsAux 0 sizes).lookup (sizes.get i).1).map (· + P) = _
    rw [chrStartsAux_lookup sizes 0 hnd i]
    simp
  · rw [hmk]
    have hstr : GenomeScaleData.toClipSpaceFromString
        ⟨genomeSizesHg38, 1, 1000⟩ "chr1:1" =
        some (GenomeScaleData.mapGenomeIndexToClipSpace
          ⟨genomeSizesHg38, 1, 1000⟩ ((1 : ℕ) : ℚ)) := rfl
    rw [Option.some_bind, hstr]
    norm_num [GenomeScaleData.mapGenomeIndexToClipSpace, scale]
  · rw [hmk]
    have hstr : GenomeScaleData.toClipSpaceFromString
        ⟨genomeSizesHg38, 1, 1000⟩ "chr1:1000" =
        some (GenomeScaleData.mapGenomeIndexToClipSpace
          ⟨genomeSizesHg38, 1, 1000⟩ ((1000 : ℕ) : ℚ)) := rfl
    rw [Option.some_bind, hstr]
    norm_num [GenomeScaleData.mapGenomeIndexToClipSpace, scale]
  · rw [hmk]
    have hinv : GenomeScaleData.mapGenomeIndexToClipSpaceInverse
        ⟨genomeSizesHg38, 1, 1000⟩ (-1) = 1 := by
      norm_num [GenomeScaleData.mapGenomeIndexToClipSpaceInverse, scale]
    rw [Option.map_some']
    simp only [GenomeScaleData.inverseString, GenomeScaleData.inverse, hinv,
      Int.floor_one]
    rfl

/-- Witness for C4 on a two-chromosome synthetic table: the second
chromosome's offset is the first chromosome's length. -/
theorem genomeScale_offsets_and_clipspace_witness :
    mapPairToGenomeIndex [("1", 10), ("2", 20)] "2" 5 = some 15 := by
  have h := genomeScale_offsets_and_clipspace.1 [("1", 10), ("2", 20)]
    (by decide) ⟨1, by norm_num⟩ 5
  simpa using h

/-! ### Lemmas about channel registration in `fromTrack` -/

theorem fromTrackStep_no_xy_attribute (track : List (String × TrackChannel))
    (s : VertexShaderState) (entry : String × ℚ) (name : String)
    (hname : name = "x" ∨ name = "y")
    (h : name ∉ s.channelAttributes.map Prod.fst) :
    name ∉ (fromTrackStep track s entry).channelAttributes.map Prod.fst := by
  have hne : ¬(entry.1 = "y" ∨ entry.1 = "x") → name ≠ entry.1 := by
    intro hxy hEq
    rcases hname with rfl | rfl
    · exact hxy (Or.inr hEq.symm)
    · exact hxy (Or.inl hEq.symm)
  by_cases hshape : entry.1 = "shape"
  · simpa [fromTrackStep, hshape] using h
  · rcases ht : track.lookup entry.1 with _ | ch
    · simpa [fromTrackStep, hshape, ht, setChannelUniform] using h
    · rcases hv : ch.value with _ | v
      · by_cases hxy : entry.1 = "y" ∨ entry.1 = "x"
        · simpa [fromTrackStep, hshape, ht, hv, hxy] using h
        · simp [fromTrackStep, hshape, ht, hv, hxy, addChannelBuffer]
          exact ⟨by simpa using h, hne hxy⟩
      · by_cases hv0 : v = 0
        · by_cases hxy : entry.1 = "y" ∨ entry.1 = "x"
          · simpa [fromTrackStep, hshape, ht, hv, hv0, hxy] using h
          · simp [fromTrackStep, hshape, ht, hv, hv0, hxy, addChannelBuffer]
            exact ⟨by simpa using h, hne hxy⟩
        · simpa [fromTrackStep, hshape, ht, hv, hv0, setChannelUniform] using h

theorem fromTrack_fold_no_xy (track : List (String × TrackChannel))
    (l : List (String × ℚ)) (s : VertexShaderState) (name : String)
    (hname : name = "x" ∨ name = "y")
    (h : name ∉ s.channelAttributes.map Prod.fst) :
    name ∉ (l.foldl (fromTrackStep track) s).channelAttributes.map Prod.fst := by
  induction l generalizing s with
  | nil => exact h
  | cons e t ih =>
      exact ih _ (fromTrackStep_no_xy_attribute track s e name hname h)

theorem fromTrackStep_uniforms_mono (track : List (String × TrackChannel))
    (s : VertexShaderState) (entry : String × ℚ) (p : String × ℚ)
    (h : p ∈ s.uniforms) : p ∈ (fromTrackStep track s entry).uniforms := by
  by_cases hshape : entry.1 = "shape"
  · simpa [fromTrackStep, hshape] using h
  · rcases ht : track.lookup entry.1 with _ | ch
    · simp [fromTrackStep, hshape, ht, setChannelUniform]
      exact Or.inl h
    · rcases hv : ch.value with _ | v
      · by_cases hxy : entry.1 = "y" ∨ entry.1 = "x"
        · simpa [fromTrackStep, hshape, ht, hv, hxy] using h
        · simpa [fromTrackStep, hshape, ht, hv, hxy, addChannelBuffer] using h
      · by_cases hv0 : v = 0
        · by_cases hxy : entry.1 = "y" ∨ entry.1 = "x"
          · simpa [fromTrackStep, hshape, ht, hv, hv0, hxy] using h
          · simpa [fromTrackStep, hshape, ht, hv, hv0, hxy,
              addChannelBuffer] using h
        · simp [fromTrackStep, hshape, ht, hv, hv0, setChannelUniform]
          exact Or.inl h

theorem fromTrack_fold_uniforms_mono (track : List (String × TrackChannel))
    (l : List (String × ℚ)) (s : VertexShaderState) (p : String × ℚ)
    (h : p ∈ s.uniforms) : p ∈ (l.foldl (fromTrackStep track) s).uniforms := by
  induction l generalizing s with
  | nil => exact h
  | cons e t ih => exact ih _ (fromTrackStep_uniforms_mono track s e p h)

theorem fromTrack_x_uniform (drawMode : String)
    (track : List (String × TrackChannel)) (v : ℚ)
    (hx : track.lookup "x" = some ⟨some v⟩) (hv : v ≠ 0) :
    ("x", v) ∈ (fromTrack drawMode track).uniforms := by
  show (DEFAULT_CHANNELS.foldl (fromTrackStep track)
    (VertexShaderState.init drawMode)).uniforms.Mem _
  rw [DEFAULT_CHANNELS, List.foldl_cons]
  apply fromTrack_fold_uniforms_mono
  simp [fromTrackStep, hx, hv, setChannelUniform, VertexShaderState.init]

theorem fromTrack_y_uniform (drawMode : String)
    (track : List (String × TrackChannel)) (v : ℚ)
    (hy : track.lookup "y" = some ⟨some v⟩) (hv : v ≠ 0) :
    ("y", v) ∈ (fromTrack drawMode track).uniforms := by
  show (DEFAULT_CHANNELS.foldl (fromTrackStep track)
    (VertexShaderState.init drawMode)).uniforms.Mem _
  rw [DEFAULT_CHANNELS, List.foldl_cons, List.foldl_cons]
  apply fromTrack_fold_uniforms_mono
  simp [fromTrackStep, hy, hv, setChannelUniform]

/-- C8, counterexample: a track that gives `x` the constant value 5 gets the
`x` channel registered as a constant uniform by `fromTrack` — so x is not
always registered as a data-bound attribute. -/
theorem x_constant_uniform_counterexample :
    ("x", (5 : ℚ)) ∈ (fromTrack "POINTS"
      [("x", ⟨some 5⟩), ("y", ⟨none⟩)]).uniforms :=
  fromTrack_x_uniform "POINTS" [("x", ⟨some 5⟩), ("y", ⟨none⟩)] 5
    (by simp [List.lookup]) (by norm_num)

/-- C8 amended: `fromTrack` never registers `x` or `y` as per-vertex channel
attribute buffers — their geometry flows exclusively through the dedicated
`aVertexPosition` buffer; but a track that gives `x` or `y` a truthy constant
value gets that channel registered as a constant uniform. -/
theorem xy_geometry_channels (drawMode : String)
    (track : List (String × TrackChannel)) :
    "x" ∉ (fromTrack drawMode track).channelAttributes.map Prod.fst ∧
    "y" ∉ (fromTrack drawMode track).channelAttributes.map Prod.fst ∧
    (∀ v : ℚ, track.lookup "x" = some ⟨some v⟩ → v ≠ 0 →
      ("x", v) ∈ (fromTrack drawMode track).uniforms) ∧
    (∀ v : ℚ, track.lookup "y" = some ⟨some v⟩ → v ≠ 0 →
      ("y", v) ∈ (fromTrack drawMode track).uniforms) := by
  refine ⟨?_, ?_, fromTrack_x_uniform drawMode track,
    fromTrack_y_uniform drawMode track⟩
  · exact fromTrack_fold_no_xy track DEFAULT_CHANNELS _ "x" (Or.inl rfl)
      (by simp [VertexShaderState.init])
  · exact fromTrack_fold_no_xy track DEFAULT_CHANNELS _ "y" (Or.inr rfl)
      (by simp [VertexShaderState.init])

/-- Witness for C8 (amended) on a track with constant `y`: `y` lands in the
uniforms and neither `x` nor `y` is an attribute buffer. -/
theorem xy_geometry_channels_witness :
    ("y", (2 : ℚ)) ∈ (fromTrack "POINTS"
      [("x", ⟨none⟩), ("y", ⟨some 2⟩)]).uniforms ∧
    "y" ∉ (fromTrack "POINTS"
      [("x", ⟨none⟩), ("y", ⟨some 2⟩)]).channelAttributes.map Prod.fst :=
  ⟨(xy_geometry_channels "POINTS" [("x", ⟨none⟩), ("y", ⟨some 2⟩)]).2.2.2 2
      (by simp [List.lookup]) (by norm_num),
   (xy_geometry_channels "POINTS" [("x", ⟨none⟩), ("y", ⟨some 2⟩)]).2.1⟩

/-! ### Lemmas about `getViewportForSpecification` -/

theorem trackXDomain_of_guarded (t : SpecTrack)
    (h : t.x.domain = none → t.x.value ≠ none → t.width ≠ none) :
    trackXDomain t = some (claimXDomain t) := by
  rcases hd : t.x.domain with _ | d
  · rcases hv : t.x.value with _ | v
    · simp [trackXDomain, claimXDomain, hd, hv]
    · rcases hw : t.width with _ | w
      · exact absurd hw (h hd (by simp [hv]))
      · simp [trackXDomain, claimXDomain, hd, hv, hw]
  · simp [trackXDomain, claimXDomain, hd]

theorem mapM_trackXDomain (tracks : List SpecTrack)
    (h : ∀ t ∈ tracks, trackXDomain t = some (claimXDomain t)) :
    tracks.mapM trackXDomain = some (tracks.map claimXDomain) := by
  induction tracks with
  | nil => rfl
  | cons a t ih =>
      rw [List.mapM_cons, h a (by simp),
        ih (fun u hu => h u (by simp [hu]))]
      rfl

theorem foldl_skipNone (upd : Option ℚ → ℚ → Option ℚ) (g : ℚ × ℚ → ℚ) :
    ∀ (l : List (Option (ℚ × ℚ))) (acc : Option ℚ),
      l.foldl (fun acc od =>
          match od with | some d => upd acc (g d) | none => acc) acc =
        ((l.filterMap id).map g).foldl upd acc := by
  intro l
  induction l with
  | nil => intro acc; rfl
  | cons a t ih =>
      intro acc
      cases a <;> simp [List.filterMap_cons, ih]

theorem updateSmallest_some (m d : ℚ) :
    updateSmallest (some m) d = some (min m d) := by
  simp only [updateSmallest, min_def]
  congr 1
  split_ifs <;> first | rfl | linarith

theorem updateLargest_some (m d : ℚ) :
    updateLargest (some m) d = some (max m d) := by
  simp only [updateLargest, max_def]
  congr 1
  split_ifs <;> first | rfl | linarith

theorem foldl_updateSmallest_some (l : List ℚ) :
    ∀ m, l.foldl updateSmallest (some m) = some (l.foldl min m) := by
  induction l with
  | nil => intro m; rfl
  | cons a t ih => intro m; rw [List.foldl_cons, updateSmallest_some, ih,
      List.foldl_cons]

theorem foldl_updateLargest_some (l : List ℚ) :
    ∀ m, l.foldl updateLargest (some m) = some (l.foldl max m) := by
  induction l with
  | nil => intro m; rfl
  | cons a t ih => intro m; rw [List.foldl_cons, updateLargest_some, ih,
      List.foldl_cons]

theorem foldl_updateSmallest_none (l : List ℚ) :
    l.foldl updateSmallest none = l.min? := by
  cases l with
  | nil => rfl
  | cons a t =>
      rw [List.foldl_cons, show updateSmallest none a = some a from rfl,
        foldl_updateSmallest_some]
      rfl

theorem foldl_updateLargest_none (l : List ℚ) :
    l.foldl updateLargest none = l.max? := by
  cases l with
  | nil => rfl
  | cons a t =>
      rw [List.foldl_cons, show updateLargest none a = some a from rfl,
        foldl_updateLargest_some]
      rfl

/-- C10, counterexample: a specification whose single track gives `x` as a
constant value, supplies no domain anywhere, and has no `width` channel makes
`getViewportForSpecification` throw (`TypeError` reading
`track.width.domain`, modelled as `none`) instead of returning the default
`-1`/`1` bounds. -/
theorem getViewport_crash_counterexample :
    getViewportForSpecification
      [⟨⟨none, some 1⟩, ⟨none, none⟩, none, none⟩] = none := rfl

/-- C10 amended: provided every track that omits its x-domain while giving x
a constant value carries a `width` channel (otherwise the unguarded
`track.width.domain` read throws), `getViewportForSpecification` returns per
dimension the minimum of the first entries and the maximum of the second
entries of the tracks' effective domains, defaulting to `-1`/`1` when no
track supplies a domain for that dimension. -/
theorem getViewport_minmax (tracks : List SpecTrack)
    (hOK : ∀ t ∈ tracks,
      t.x.domain = none → t.x.value ≠ none → t.width ≠ none) :
    getViewportForSpecification tracks =
      some ((((tracks.filterMap claimXDomain).map Prod.fst).min?).getD (-1),
            (((tracks.filterMap claimXDomain).map Prod.snd).max?).getD 1,
            (((tracks.filterMap trackYDomain).map Prod.fst).min?).getD (-1),
            (((tracks.filterMap trackYDomain).map Prod.snd).max?).getD 1) := by
  have hmapM : tracks.mapM trackXDomain = some (tracks.map claimXDomain) :=
    mapM_trackXDomain tracks
      (fun t ht => trackXDomain_of_guarded t (hOK t ht))
  simp only [getViewportForSpecification, hmapM]
  rw [foldl_skipNone updateSmallest Prod.fst,
    foldl_skipNone updateLargest Prod.snd,
    foldl_skipNone updateSmallest Prod.fst,
    foldl_skipNone updateLargest Prod.snd,
    List.filterMap_map, List.filterMap_map]
  simp only [Function.comp_def, id]
  rw [foldl_updateSmallest_none, foldl_updateLargest_none,
    foldl_updateSmallest_none, foldl_updateLargest_none]

/-- Witness for C10 (amended): one track with an x-domain and nothing for y
gives that x-domain and the default y bounds. -/
theorem getViewport_minmax_witness :
    getViewportForSpecification
      [⟨⟨some (0, 10), none⟩, ⟨none, none⟩, none, none⟩] =
      some (0, 10, -1, 1) := by
  rw [getViewport_minmax _ (by
    intro t ht h1 _
    rw [List.mem_singleton] at ht
    subst ht
    simp at h1)]
  rfl

end Epiviz

